import Mathlib

/-!
Verification of the 2048 packed-position codec (src/src/main.rs).

The source stores a 4x4 grid of tile exponents in two 64-bit lanes
(`struct Position(u64, u64)`), one byte per cell, row-major: the low byte of
the first lane is the top-left cell.  Machine integers are modelled as `Nat`;
`u64` overflow never occurs in the modelled operations because every value
written is produced by `|||` of values below `2 ^ 64`, and reads mask with
`0xF`.  Functions that `panic` in Rust are modelled as `Except Err`-valued
functions, with the panic sites mapped to the error kinds of the spec:
the unparseable-token and wrong-count panics of `from_string` are
`MalformedInput`, the invalid-tile panics of `from_list` / `from_string` are
`InvalidTile`, and the panic of `validate_position` is `InvalidExponent`.
-/

/-- Error kinds of the spec, standing for the distinct panic sites of the
source (which has no typed errors). -/
inductive Err where
  | invalidTile (tile : Nat) (idx : Nat)
  | invalidExponent (e : Nat) (row : Nat) (col : Nat)
  | malformedInput
deriving DecidableEq, Repr

/-- Rust: `fn exponent_to_tile(e: u8) -> u32 { if e == 0 { 0 } else { 1u32 << e } }`.
For the exponents that actually occur (below 32) the `u32` shift does not
overflow, so `Nat` shift is faithful. -/
def exponent_to_tile (e : Nat) : Nat :=
  if e = 0 then 0 else 1 <<< e

/-- Rust: `u32::leading_zeros` for a 32-bit value, counted as the number of
exponents `k < 32` with `2 ^ k ≤ t`, subtracted from 32. -/
def leading_zeros_u32 (t : Nat) : Nat :=
  32 - (List.range 32).countP (fun k => 2 ^ k ≤ t)

/-- Rust: `fn tile_to_exponent(tile: u32) -> u8`, a floored base-2 logarithm
via `31 - tile.leading_zeros()`, with `0 -> 0`. -/
def tile_to_exponent (tile : Nat) : Nat :=
  if tile = 0 then 0 else 31 - leading_zeros_u32 tile

/-- Rust: `fn is_valid_exponent(e: u8) -> bool { e < 18 }` (`MAX_EXPONENT = 17`). -/
def is_valid_exponent (e : Nat) : Bool :=
  e < 18

/-- Rust: `fn is_valid_tile(tile: u32) -> bool`: the exponent is in range and
re-encoding it reproduces the tile (so the tile is 0 or an exact power of two). -/
def is_valid_tile (tile : Nat) : Bool :=
  is_valid_exponent (tile_to_exponent tile) && (exponent_to_tile (tile_to_exponent tile) == tile)

deriving instance DecidableEq for Except

/-- Rust: `struct Position(u64, u64)`; `lo` is field `.0`, `hi` is field `.1`. -/
structure Position where
  lo : Nat
  hi : Nat
deriving DecidableEq, Repr

/-- Rust: `Position::exponent_at`.  Reads the byte of cell `(row, col)`:
lane `.0` for rows 0-1, lane `.1` for rows 2-3 (with `row -= 2`), shift
`8 * (row * 4 + col)`, mask `0xF`. -/
def Position.exponent_at (p : Position) (row col : Nat) : Nat :=
  let read := if row < 2 then p.lo else p.hi
  let r := if row < 2 then row else row - 2
  let shift := 8 * (r * 4 + col)
  (read &&& (0xF <<< shift)) >>> shift

/-- Rust: `Position::tile_at`. -/
def Position.tile_at (p : Position) (row col : Nat) : Nat :=
  exponent_to_tile (p.exponent_at row col)

/-- Rust: `Position::set_exponent`.  ORs `(0xF & e) << shift` into the lane
holding cell `(row, col)`; it does not clear the cell first. -/
def Position.set_exponent (p : Position) (row col e : Nat) : Position :=
  let r := if row < 2 then row else row - 2
  let shift := 8 * (r * 4 + col)
  let v := (0xF &&& e) <<< shift
  if row < 2 then { p with lo := p.lo ||| v } else { p with hi := p.hi ||| v }

/-- Rust: `Position::set_tile`. -/
def Position.set_tile (p : Position) (row col tile : Nat) : Position :=
  p.set_exponent row col (tile_to_exponent tile)

/-- Loop body of `Position::validate_position`: check the listed cells in
order, failing at the first invalid exponent. -/
def checkCells (p : Position) : List (Nat × Nat) → Except Err Unit
  | [] => Except.ok ()
  | (r, c) :: rest =>
    if is_valid_exponent (p.exponent_at r c) then checkCells p rest
    else Except.error (Err.invalidExponent (p.exponent_at r c) r c)

/-- Rust: `Position::validate_position`, iterating rows then columns. -/
def Position.validate_position (p : Position) : Except Err Unit :=
  checkCells p ((List.range 16).map (fun i => (i / 4, i % 4)))

/-- Loop body of `Position::from_list`: fold the listed indices in order,
failing with `InvalidTile` at the first invalid cell. -/
def packFrom (list : Nat → Nat) (p : Position) : List Nat → Except Err Position
  | [] => Except.ok p
  | i :: rest =>
    if is_valid_tile (list i) then packFrom list (p.set_tile (i / 4) (i % 4) (list i)) rest
    else Except.error (Err.invalidTile (list i) i)

/-- Rust: `Position::from_list`, iterating `i = row * 4 + col` for rows then
columns over a zero-initialized position. -/
def Position.from_list (list : Nat → Nat) : Except Err Position :=
  packFrom list ⟨0, 0⟩ (List.range 16)

/-- Helper for `split_whitespace`: walk the characters, accumulating the
current (reversed) token and emitting it at each whitespace run or at the end;
empty tokens are never emitted. -/
def splitWsAux : List Char → List Char → List String
  | [], acc => if acc.isEmpty then [] else [String.mk acc.reverse]
  | c :: rest, acc =>
    if c.isWhitespace then
      if acc.isEmpty then splitWsAux rest []
      else String.mk acc.reverse :: splitWsAux rest []
    else splitWsAux rest (c :: acc)

/-- Rust: `str::split_whitespace` — the whitespace-separated tokens of `s`. -/
def splitWs (s : String) : List String :=
  splitWsAux s.data []

/-- Digit accumulator for `u32` parsing: `none` as soon as a non-digit is hit. -/
def digitsToNat (cs : List Char) : Option Nat :=
  cs.foldl
    (fun acc c =>
      match acc with
      | none => none
      | some a => if c.isDigit then some (a * 10 + (c.toNat - 48)) else none)
    (some 0)

/-- Rust: `str::parse::<u32>()` — an optional leading `+`, then at least one
digit, value at most `u32::MAX`; anything else is a parse error. -/
def parseU32 (t : String) : Option Nat :=
  let cs := match t.data with
    | '+' :: rest => rest
    | cs => cs
  if cs.isEmpty then none
  else match digitsToNat cs with
    | none => none
    | some v => if v < 4294967296 then some v else none

/-- Token loop of `Position::from_string`: parse each token (a parse failure
is the spec's `MalformedInput`), check `is_valid_tile` (failure is
`InvalidTile` at that token's index), and collect the exponents in order. -/
def parseTokens : List String → Nat → Except Err (List Nat)
  | [], _ => Except.ok []
  | t :: ts, i =>
    match parseU32 t with
    | none => Except.error Err.malformedInput
    | some tile =>
      if is_valid_tile tile then
        match parseTokens ts (i + 1) with
        | Except.ok es => Except.ok (tile_to_exponent tile :: es)
        | Except.error e => Except.error e
      else Except.error (Err.invalidTile tile i)

/-- Final loop of `Position::from_string`: write exponent `i` into cell
`(i / 4, i % 4)` of a zero-initialized position. -/
def buildFromExponents (es : List Nat) : Position :=
  (List.range 16).foldl (fun p i => p.set_exponent (i / 4) (i % 4) (es.getD i 0)) ⟨0, 0⟩

/-- Rust: `Position::from_string`: split on whitespace, run the token loop,
then fail with the wrong-count panic (the spec's `MalformedInput`) unless
exactly 16 exponents were collected. -/
def Position.from_string (s : String) : Except Err Position :=
  match parseTokens (splitWs s) 0 with
  | Except.error e => Except.error e
  | Except.ok es =>
    if es.length = 16 then Except.ok (buildFromExponents es) else Except.error Err.malformedInput

/-- Check whether a token parses to a valid tile (used to state when the
token loop succeeds). -/
def goodToken (t : String) : Bool :=
  match parseU32 t with
  | some v => is_valid_tile v
  | none => false

/-- Byte `i` (0-15) of the packed position, per the documented layout: bytes
0-7 are the first lane low-to-high, bytes 8-15 the second lane. -/
def Position.toBytes (p : Position) (i : Nat) : Nat :=
  if i < 8 then (p.lo >>> (8 * i)) &&& 255 else (p.hi >>> (8 * (i - 8))) &&& 255

/-- Reassemble a position from its 16 bytes (indices 0-15 of `b`). -/
def Position.ofBytes (b : Nat → Nat) : Position :=
  ⟨b 0 + b 1 * 256 + b 2 * 65536 + b 3 * 16777216 + b 4 * 4294967296 +
      b 5 * 1099511627776 + b 6 * 281474976710656 + b 7 * 72057594037927936,
    b 8 + b 9 * 256 + b 10 * 65536 + b 11 * 16777216 + b 12 * 4294967296 +
      b 13 * 1099511627776 + b 14 * 281474976710656 + b 15 * 72057594037927936⟩

/-- Modelled from the spec: the static byte-lane permutation table for a
normalized quarter-turn count (rotation itself is absent from the source).
Entry `i` names the source byte of destination byte `i`; one clockwise turn
sends grid cell `(3 - c, r)` to cell `(r, c)`. -/
def rotTable (t i : Nat) : Nat :=
  match t with
  | 1 => (3 - i % 4) * 4 + i / 4
  | 2 => 15 - i
  | 3 => (i % 4) * 4 + (3 - i / 4)
  | _ => i

/-- Modelled from the spec: `rotate(packed, quarter_turns)` — normalize the
turn count modulo 4, return the input unchanged for 0 turns, and otherwise
permute the 16 exponent bytes by the static table for that count. -/
def rotate (p : Position) (quarter_turns : Nat) : Position :=
  let t := quarter_turns % 4
  if t = 0 then p else Position.ofBytes (fun i => p.toBytes (rotTable t i))

/-- Grid of the spec's concrete packing scenario:
`[[16,8,8,4],[4,2,0,0],[2,0,0,0],[0,0,2,0]]`, row-major. -/
def gridC8 : Nat → Nat := fun i => [16, 8, 8, 4, 4, 2, 0, 0, 2, 0, 0, 0, 0, 0, 2, 0].getD i 0

/-- Grid whose only nonzero cell is the top-left tile 65536 = 2 ^ 16, a valid
tile by `is_valid_tile` since `MAX_EXPONENT = 17`. -/
def gridExp16 : Nat → Nat := fun i => if i = 0 then 65536 else 0

/-- Grid whose cell 1 holds the invalid tile 3 (cell 0 holds the valid tile 2). -/
def gridWith3 : Nat → Nat := fun i => if i = 1 then 3 else 2

example : Position.from_list (fun _ => 0) = Except.ok ⟨0, 0⟩ := by decide
example : Position.from_list (fun i => if i = 0 then 16 else 0) = Except.ok ⟨4, 0⟩ := by decide
example : Position.tile_at ⟨4, 0⟩ 0 0 = 16 := by decide
example : tile_to_exponent 131072 = 17 := by decide
example : is_valid_tile 131072 = true := by decide
example : is_valid_tile 3 = false := by decide
example : exponent_to_tile 18 = 262144 := by decide
example : splitWs ("2 2 2") = ["2", "2", "2"] := by decide
example : splitWs ("3 2") = ["3", "2"] := by decide
example : parseU32 ("2") = some 2 := by decide
example : parseU32 ("x2") = none := by decide
example : Position.from_string ("3 2") = Except.error (Err.invalidTile 3 0) := by decide
example : Position.from_string ("2 2 2") = Except.error Err.malformedInput := by decide
example : rotate ⟨4, 0⟩ 0 = ⟨4, 0⟩ := by decide
example : rotate (rotate (rotate (rotate ⟨4, 1⟩ 1) 1) 1) 1 = ⟨4, 1⟩ := by decide

lemma mask_then_shift (a s : Nat) : (a &&& (15 <<< s)) >>> s = (a >>> s) &&& 15 := by
  apply Nat.eq_of_testBit_eq
  intro j
  simp only [Nat.testBit_shiftRight, Nat.testBit_and, Nat.testBit_shiftLeft, ge_iff_le]
  have h1 : s + j - s = j := by omega
  have h2 : s ≤ s + j := Nat.le_add_right s j
  simp [h1, h2]

lemma or_nibble_same (a m s : Nat) (hm : m < 16) :
    ((a ||| (m <<< s)) >>> s) &&& 15 = ((a >>> s) &&& 15) ||| m := by
  apply Nat.eq_of_testBit_eq
  intro j
  simp only [Nat.testBit_and, Nat.testBit_or, Nat.testBit_shiftRight, Nat.testBit_shiftLeft,
    ge_iff_le]
  have h1 : s + j - s = j := by omega
  have h2 : s ≤ s + j := Nat.le_add_right s j
  simp only [h1, h2, decide_eq_true_eq, decide_True, Bool.true_and]
  by_cases hj : j < 4
  · have h15 : Nat.testBit 15 j = true := by interval_cases j <;> decide
    simp [h15]
  · have h15 : Nat.testBit 15 j = false := by
      apply Nat.testBit_lt_two_pow
      calc 15 < 16 := by norm_num
        _ = 2 ^ 4 := by norm_num
        _ ≤ 2 ^ j := Nat.pow_le_pow_right (by norm_num) (by omega)
    have hmj : m.testBit j = false := by
      apply Nat.testBit_lt_two_pow
      calc m < 16 := hm
        _ = 2 ^ 4 := by norm_num
        _ ≤ 2 ^ j := Nat.pow_le_pow_right (by norm_num) (by omega)
    simp [h15, hmj]

lemma or_nibble_other (a m s s' : Nat) (hm : m < 16) (hd : s + 8 ≤ s' ∨ s' + 8 ≤ s) :
    ((a ||| (m <<< s)) >>> s') &&& 15 = (a >>> s') &&& 15 := by
  apply Nat.eq_of_testBit_eq
  intro j
  simp only [Nat.testBit_and, Nat.testBit_or, Nat.testBit_shiftRight, Nat.testBit_shiftLeft,
    ge_iff_le]
  by_cases hj : j < 4
  · have hside : (decide (s ≤ s' + j) && m.testBit (s' + j - s)) = false := by
      rcases hd with hd | hd
      · have : m.testBit (s' + j - s) = false := by
          apply Nat.testBit_lt_two_pow
          calc m < 16 := hm
            _ = 2 ^ 4 := by norm_num
            _ ≤ 2 ^ (s' + j - s) := Nat.pow_le_pow_right (by norm_num) (by omega)
        simp [this]
      · have : ¬ s ≤ s' + j := by omega
        simp [this]
    simp [hside]
  · have h15 : Nat.testBit 15 j = false := by
      apply Nat.testBit_lt_two_pow
      calc 15 < 16 := by norm_num
        _ = 2 ^ 4 := by norm_num
        _ ≤ 2 ^ j := Nat.pow_le_pow_right (by norm_num) (by omega)
    simp [h15]

/-- C1: the round-trip law `unpack(pack(g)) == g` FAILS on the code for the
valid grid whose top-left tile is `65536 = 2 ^ 16`: `from_list` accepts the
tile (its exponent 16 is at most `MAX_EXPONENT = 17`), but `set_exponent`
keeps only the low 4 bits of the exponent, storing byte 0, so `tile_at`
reads the cell back as 0, not 65536.  The packed result is the all-zero
position. -/
theorem claim_C1_roundtrip_fails_on_exponent_16 :
    is_valid_tile 65536 = true ∧
      gridExp16 0 = 65536 ∧
      Position.from_list gridExp16 = Except.ok ⟨0, 0⟩ ∧
      Position.tile_at ⟨0, 0⟩ 0 0 = 0 := by
  refine ⟨by decide, by decide, by decide, by decide⟩

/-- C3: a packed position whose byte 0 holds 18, which exceeds
`MAX_EXPONENT = 17`, is NOT rejected: `exponent_at` masks every byte with
`0xF`, so the cell silently decodes to exponent 2 (tile 4) and
`validate_position` succeeds — no `InvalidExponent` failure is possible. -/
theorem claim_C3_out_of_range_byte_decoded_silently :
    Position.toBytes ⟨18, 0⟩ 0 = 18 ∧
      is_valid_exponent 18 = false ∧
      Position.validate_position ⟨18, 0⟩ = Except.ok () ∧
      Position.exponent_at ⟨18, 0⟩ 0 0 = 2 ∧
      Position.tile_at ⟨18, 0⟩ 0 0 = 4 := by
  refine ⟨by decide, by decide, by decide, by decide, by decide⟩

/-- C4: `exponent_to_tile` performs NO range check: at the out-of-range
exponent 18 (greater than `MAX_EXPONENT = 17`, rejected by
`is_valid_exponent`) it returns the value `2 ^ 18 = 262144` instead of
failing with `InvalidExponent`. -/
theorem claim_C4_exponent_to_tile_no_range_check :
    exponent_to_tile 18 = 262144 ∧ is_valid_exponent 18 = false := by
  refine ⟨by decide, by decide⟩

/-- C7: for every exponent in `[0, MAX_EXPONENT] = [0, 17]`, encoding the
decoded tile returns the exponent: `tile_to_exponent (exponent_to_tile e) = e`. -/
theorem claim_C7_exponent_roundtrip (e : Nat) (he : e ≤ 17) :
    tile_to_exponent (exponent_to_tile e) = e := by
  interval_cases e <;> decide

/-- Witness for C7 at the extreme valid exponent 17 (tile 131072). -/
theorem claim_C7_witness : tile_to_exponent (exponent_to_tile 17) = 17 :=
  claim_C7_exponent_roundtrip 17 (by norm_num)

/-- C8: packing the grid `[[16,8,8,4],[4,2,0,0],[2,0,0,0],[0,0,2,0]]` yields
the packed value with lanes `(1108135314180, 281474976710657)`, whose bytes
0-15 (byte 0 = low byte of the first lane = top-left cell) hold the exponents
`[4,3,3,2,2,1,0,0,1,0,0,0,0,0,1,0]`. -/
theorem claim_C8_concrete_pack :
    Position.from_list gridC8 = Except.ok ⟨1108135314180, 281474976710657⟩ ∧
      (List.range 16).map (Position.toBytes ⟨1108135314180, 281474976710657⟩) =
        [4, 3, 3, 2, 2, 1, 0, 0, 1, 0, 0, 0, 0, 0, 1, 0] := by
  refine ⟨by decide, by decide⟩

/-- C9: `set_exponent` ORs the low 4 bits of `e` into the addressed cell
rather than overwriting it: reading the cell back gives
`old_exponent ||| (e &&& 0xF)`. -/
theorem claim_C9_set_exponent_ors_nibble (p : Position) (row col e : Nat)
    (hr : row < 4) (hc : col < 4) (he : e < 256) :
    (p.set_exponent row col e).exponent_at row col =
      p.exponent_at row col ||| (e &&& 0xF) := by
  have hm : (0xF : Nat) &&& e < 16 := lt_of_le_of_lt Nat.and_le_left (by norm_num)
  by_cases h2 : row < 2
  · simp only [Position.set_exponent, Position.exponent_at, h2, if_true]
    rw [mask_then_shift, mask_then_shift, or_nibble_same _ _ _ hm, Nat.and_comm e 15]
  · simp only [Position.set_exponent, Position.exponent_at, h2, if_false]
    rw [mask_then_shift, mask_then_shift, or_nibble_same _ _ _ hm, Nat.and_comm e 15]

/-- Witness for C9: writing exponent 7 over a cell already holding exponent 5
(position `(5, 0)`, cell `(0, 0)`) reads back `5 ||| 7 = 7`. -/
theorem claim_C9_witness :
    (Position.set_exponent ⟨5, 0⟩ 0 0 7).exponent_at 0 0 =
      Position.exponent_at ⟨5, 0⟩ 0 0 ||| (7 &&& 0xF) :=
  claim_C9_set_exponent_ors_nibble ⟨5, 0⟩ 0 0 7 (by norm_num) (by norm_num) (by norm_num)

/-- C10: `set_exponent` on cell `(row, col)` leaves every other cell
unchanged: `exponent_at` at any `(row', col') ≠ (row, col)` returns the same
value after the call as before it. -/
theorem claim_C10_set_exponent_frame (p : Position) (row col e row' col' : Nat)
    (hr : row < 4) (hc : col < 4) (hr' : row' < 4) (hc' : col' < 4)
    (hne : (row', col') ≠ (row, col)) :
    (p.set_exponent row col e).exponent_at row' col' = p.exponent_at row' col' := by
  have hm : (0xF : Nat) &&& e < 16 := lt_of_le_of_lt Nat.and_le_left (by norm_num)
  have hne' : row' ≠ row ∨ col' ≠ col := by
    by_contra h
    push_neg at h
    exact hne (by rw [h.1, h.2])
  by_cases h2 : row < 2 <;> by_cases h2' : row' < 2
  · simp only [Position.set_exponent, Position.exponent_at, h2, h2', if_true]
    rw [mask_then_shift, mask_then_shift]
    exact or_nibble_other _ _ _ _ hm (by omega)
  · simp only [Position.set_exponent, Position.exponent_at, h2, h2', if_true, if_false]
  · simp only [Position.set_exponent, Position.exponent_at, h2, h2', if_true, if_false]
  · simp only [Position.set_exponent, Position.exponent_at, h2, h2', if_false]
    rw [mask_then_shift, mask_then_shift]
    exact or_nibble_other _ _ _ _ hm (by omega)

/-- Witness for C10: writing exponent 9 into cell `(0, 0)` of the position
with lanes `(777, 3)` leaves cell `(1, 2)` unchanged. -/
theorem claim_C10_witness :
    (Position.set_exponent ⟨777, 3⟩ 0 0 9).exponent_at 1 2 =
      Position.exponent_at ⟨777, 3⟩ 1 2 :=
  claim_C10_set_exponent_frame ⟨777, 3⟩ 0 0 9 1 2 (by norm_num) (by norm_num)
    (by norm_num) (by norm_num) (by decide)

lemma and_255_eq_mod (x : Nat) : x &&& 255 = x % 256 := by
  have h : (255 : Nat) = 2 ^ 8 - 1 := by norm_num
  rw [h, Nat.and_pow_two_sub_one_eq_mod]

lemma toBytes_lt (p : Position) (i : Nat) : p.toBytes i < 256 := by
  unfold Position.toBytes
  split <;> exact lt_of_le_of_lt Nat.and_le_right (by norm_num)

lemma ofBytes_toBytes (p : Position) (hlo : p.lo < 2 ^ 64) (hhi : p.hi < 2 ^ 64) :
    Position.ofBytes p.toBytes = p := by
  obtain ⟨lo, hi⟩ := p
  simp only [Position.ofBytes, Position.toBytes] at *
  norm_num at *
  simp only [Nat.shiftRight_eq_div_pow, and_255_eq_mod]
  norm_num
  constructor <;> omega

lemma toBytes_ofBytes (b : Nat → Nat) (hb : ∀ i, i < 16 → b i < 256) (i : Nat) (hi : i < 16) :
    (Position.ofBytes b).toBytes i = b i := by
  have h0 := hb 0 (by norm_num)
  have h1 := hb 1 (by norm_num)
  have h2 := hb 2 (by norm_num)
  have h3 := hb 3 (by norm_num)
  have h4 := hb 4 (by norm_num)
  have h5 := hb 5 (by norm_num)
  have h6 := hb 6 (by norm_num)
  have h7 := hb 7 (by norm_num)
  have h8 := hb 8 (by norm_num)
  have h9 := hb 9 (by norm_num)
  have h10 := hb 10 (by norm_num)
  have h11 := hb 11 (by norm_num)
  have h12 := hb 12 (by norm_num)
  have h13 := hb 13 (by norm_num)
  have h14 := hb 14 (by norm_num)
  have h15 := hb 15 (by norm_num)
  interval_cases i <;>
    · simp only [Position.ofBytes, Position.toBytes, Nat.shiftRight_eq_div_pow, and_255_eq_mod]
      norm_num
      omega

lemma ofBytes_lanes_lt (b : Nat → Nat) (hb : ∀ i, i < 16 → b i < 256) :
    (Position.ofBytes b).lo < 2 ^ 64 ∧ (Position.ofBytes b).hi < 2 ^ 64 := by
  have h0 := hb 0 (by norm_num)
  have h1 := hb 1 (by norm_num)
  have h2 := hb 2 (by norm_num)
  have h3 := hb 3 (by norm_num)
  have h4 := hb 4 (by norm_num)
  have h5 := hb 5 (by norm_num)
  have h6 := hb 6 (by norm_num)
  have h7 := hb 7 (by norm_num)
  have h8 := hb 8 (by norm_num)
  have h9 := hb 9 (by norm_num)
  have h10 := hb 10 (by norm_num)
  have h11 := hb 11 (by norm_num)
  have h12 := hb 12 (by norm_num)
  have h13 := hb 13 (by norm_num)
  have h14 := hb 14 (by norm_num)
  have h15 := hb 15 (by norm_num)
  simp only [Position.ofBytes]
  constructor
  · norm_num
    omega
  · norm_num
    omega

lemma rotate_one_eq (p : Position) :
    rotate p 1 = Position.ofBytes (fun j => p.toBytes (rotTable 1 j)) := rfl

lemma rotTable_one_lt (i : Nat) (hi : i < 16) : rotTable 1 i < 16 := by
  show (3 - i % 4) * 4 + i / 4 < 16
  omega

lemma toBytes_rotate_one (p : Position) (i : Nat) (hi : i < 16) :
    (rotate p 1).toBytes i = p.toBytes (rotTable 1 i) := by
  rw [rotate_one_eq, toBytes_ofBytes _ (fun j _ => toBytes_lt p _) i hi]

lemma position_ext_bytes (p q : Position)
    (hplo : p.lo < 2 ^ 64) (hphi : p.hi < 2 ^ 64)
    (hqlo : q.lo < 2 ^ 64) (hqhi : q.hi < 2 ^ 64)
    (h : ∀ i, i < 16 → p.toBytes i = q.toBytes i) : p = q := by
  rw [← ofBytes_toBytes p hplo hphi, ← ofBytes_toBytes q hqlo hqhi]
  simp only [Position.ofBytes]
  rw [h 0 (by norm_num), h 1 (by norm_num), h 2 (by norm_num), h 3 (by norm_num),
    h 4 (by norm_num), h 5 (by norm_num), h 6 (by norm_num), h 7 (by norm_num),
    h 8 (by norm_num), h 9 (by norm_num), h 10 (by norm_num), h 11 (by norm_num),
    h 12 (by norm_num), h 13 (by norm_num), h 14 (by norm_num), h 15 (by norm_num)]

/-- C2: rotating a packed position by 0 quarter turns returns it unchanged,
and four successive clockwise quarter turns return it as well.  (Rotation is
absent from the source; `rotate` is modelled from the spec as a static
byte-lane permutation per normalized turn count.) -/
theorem claim_C2_rotation_laws (p : Position) (hlo : p.lo < 2 ^ 64) (hhi : p.hi < 2 ^ 64) :
    rotate p 0 = p ∧ rotate (rotate (rotate (rotate p 1) 1) 1) 1 = p := by
  constructor
  · rfl
  · have bound : ∀ q : Position, (rotate q 1).lo < 2 ^ 64 ∧ (rotate q 1).hi < 2 ^ 64 := by
      intro q
      rw [rotate_one_eq]
      exact ofBytes_lanes_lt _ (fun j _ => toBytes_lt q _)
    apply position_ext_bytes _ _ (bound _).1 (bound _).2 hlo hhi
    intro i hi
    rw [toBytes_rotate_one _ _ hi,
      toBytes_rotate_one _ _ (rotTable_one_lt _ hi),
      toBytes_rotate_one _ _ (rotTable_one_lt _ (rotTable_one_lt _ hi)),
      toBytes_rotate_one _ _ (rotTable_one_lt _ (rotTable_one_lt _ (rotTable_one_lt _ hi)))]
    congr 1
    interval_cases i <;> rfl

/-- Witness for C2 at the packed position with lanes `(4, 1)`. -/
theorem claim_C2_witness :
    rotate ⟨4, 1⟩ 0 = ⟨4, 1⟩ ∧ rotate (rotate (rotate (rotate ⟨4, 1⟩ 1) 1) 1) 1 = ⟨4, 1⟩ :=
  claim_C2_rotation_laws ⟨4, 1⟩ (by norm_num) (by norm_num)

lemma packFrom_first_invalid (n : Nat) :
    ∀ (a : Nat) (list : Nat → Nat) (p : Position) (j : Nat),
      a ≤ j → j < a + n → is_valid_tile (list j) = false →
      (∀ i, a ≤ i → i < j → is_valid_tile (list i) = true) →
      packFrom list p (List.range' a n) = Except.error (Err.invalidTile (list j) j) := by
  induction n with
  | zero =>
    intro a list p j h1 h2 _ _
    omega
  | succ n ih =>
    intro a list p j h1 h2 hbad hgood
    rw [List.range'_succ]
    by_cases haj : a = j
    · subst haj
      simp [packFrom, hbad]
    · have hva : is_valid_tile (list a) = true := hgood a le_rfl (by omega)
      simp only [packFrom, hva, if_true]
      exact ih (a + 1) list _ j (by omega) (by omega) hbad (fun i hi1 hi2 => hgood i (by omega) hi2)

/-- C5: packing a grid that contains an invalid cell fails with `InvalidTile`
identifying the offending cell: if cell `j` is the first cell (in the source's
row-major order) whose value is neither 0 nor an in-range exact power of two,
`from_list` returns `InvalidTile` carrying that cell's value and index. -/
theorem claim_C5_from_list_first_invalid (list : Nat → Nat) (j : Nat)
    (hj : j < 16) (hbad : is_valid_tile (list j) = false)
    (hfirst : ∀ i, i < j → is_valid_tile (list i) = true) :
    Position.from_list list = Except.error (Err.invalidTile (list j) j) := by
  unfold Position.from_list
  rw [List.range_eq_range']
  exact packFrom_first_invalid 16 0 list _ j (Nat.zero_le _) (by omega) hbad
    (fun i _ hi2 => hfirst i hi2)

/-- Witness for C5: the grid whose cell 1 holds the invalid value 3 is
rejected with `InvalidTile 3 1`. -/
theorem claim_C5_witness :
    Position.from_list gridWith3 = Except.error (Err.invalidTile 3 1) :=
  claim_C5_from_list_first_invalid gridWith3 1 (by omega) (by decide)
    (fun i hi => by interval_cases i; decide)

lemma parseTokens_all_good :
    ∀ (ts : List String) (i : Nat), ts.all goodToken = true →
      ∃ es, parseTokens ts i = Except.ok es ∧ es.length = ts.length := by
  intro ts
  induction ts with
  | nil => exact fun i _ => ⟨[], rfl, rfl⟩
  | cons t ts ih =>
    intro i hall
    rw [List.all_cons, Bool.and_eq_true] at hall
    obtain ⟨ht, hts⟩ := hall
    obtain ⟨es, hok, hlen⟩ := ih (i + 1) hts
    unfold goodToken at ht
    cases hp : parseU32 t with
    | none => rw [hp] at ht; exact absurd ht (by simp)
    | some v =>
      rw [hp] at ht
      have ht' : is_valid_tile v = true := ht
      refine ⟨tile_to_exponent v :: es, ?_, by simp [hlen]⟩
      simp [parseTokens, hp, ht', hok]

lemma parseTokens_first_unparseable :
    ∀ (ts₁ : List String) (i : Nat) (t : String) (ts₂ : List String),
      ts₁.all goodToken = true → parseU32 t = none →
      parseTokens (ts₁ ++ t :: ts₂) i = Except.error Err.malformedInput := by
  intro ts₁
  induction ts₁ with
  | nil =>
    intro i t ts₂ _ hnone
    simp [parseTokens, hnone]
  | cons u ts₁ ih =>
    intro i t ts₂ hall hnone
    rw [List.all_cons, Bool.and_eq_true] at hall
    obtain ⟨hu, hts⟩ := hall
    unfold goodToken at hu
    cases hp : parseU32 u with
    | none => rw [hp] at hu; exact absurd hu (by simp)
    | some v =>
      rw [hp] at hu
      have hu' : is_valid_tile v = true := hu
      simp only [List.cons_append, parseTokens, hp, hu', if_true, List.append_eq]
      rw [ih (i + 1) t ts₂ hts hnone]

/-- C6 (amended): `from_string` fails with `MalformedInput` whenever every
token parses to a valid tile but the token count is not 16, or some token
fails to parse as a non-negative integer and every earlier token parses to a
valid tile.  (The original claim fails: a parseable token that is not a valid
tile triggers `InvalidTile` before the count is ever checked, see the
counterexample.) -/
theorem claim_C6_amended (s : String)
    (h : ((splitWs s).all goodToken = true ∧ (splitWs s).length ≠ 16) ∨
      (∃ ts₁ t ts₂, splitWs s = ts₁ ++ t :: ts₂ ∧ parseU32 t = none ∧
        ts₁.all goodToken = true)) :
    Position.from_string s = Except.error Err.malformedInput := by
  unfold Position.from_string
  rcases h with ⟨hall, hlen⟩ | ⟨ts₁, t, ts₂, hsplit, hnone, hgood⟩
  · obtain ⟨es, hok, hlen'⟩ := parseTokens_all_good (splitWs s) 0 hall
    rw [hok]
    simp [hlen' ▸ hlen]
  · rw [hsplit, parseTokens_first_unparseable ts₁ 0 t ts₂ hgood hnone]

/-- Counterexample for C6 as stated: the input `"3 2"` does not consist of 16
tokens, yet parsing fails with `InvalidTile` (the token-validity panic fires
at token 0 before the count check), not with `MalformedInput`. -/
theorem claim_C6_counterexample :
    Position.from_string ("3 2") = Except.error (Err.invalidTile 3 0) := by decide

/-- Witness for C6 (amended) on the spec's example `"2 2 2"`: three valid
tokens, wrong count, `MalformedInput`. -/
theorem claim_C6_witness :
    Position.from_string ("2 2 2") = Except.error Err.malformedInput :=
  claim_C6_amended ("2 2 2") (Or.inl ⟨by decide, by decide⟩)
